import Mathlib

/-!
Shallow embedding of the ZoraxFinanceWebApp backend
(`src/server/route.ts`, storage layer and `@shared/schema`).

JavaScript / SQL primitives used by the source are modelled first:
`parseInt` (radix auto-detection included), `String(n)`, `padStart(3, '0')`,
SQL `substring(s from k)` and SQL `max` over text (lexicographic).
Strings are compared bytewise / by code point, matching the ASCII data the
application stores.  JavaScript numbers are modelled as `Int`: no operation
of the embedded code performs non-integral arithmetic (the `amount` column
is only stored and copied, never computed with), and `NaN` is modelled
explicitly as `Option.none` where `parseInt` can produce it.
-/

namespace Zorax

/-- Decimal digits of a natural number, most significant first, accumulated
onto `acc`; structural recursion on a fuel argument so that the kernel can
evaluate it (any `fuel ≥ n` computes all digits of `n`). -/
def natDecimalAux : Nat → Nat → List Char → List Char
  | 0, _, acc => acc
  | fuel + 1, n, acc =>
      if n = 0 then acc
      else natDecimalAux fuel (n / 10) (Char.ofNat (48 + n % 10) :: acc)

/-- JavaScript `String(n)` for a non-negative integer. -/
def natToDecimal (n : Nat) : String :=
  if n = 0 then "0" else String.mk (natDecimalAux n n [])

/-- JavaScript `String(n)` for an integer (decimal, `-` sign for negatives). -/
def intToString (i : Int) : String :=
  if i < 0 then "-" ++ natToDecimal i.natAbs else natToDecimal i.toNat

/-- Numeric value of a list of decimal digit characters (most significant
first), as folded up by a left-to-right scan. -/
def digitsToNat (ds : List Char) : Nat :=
  ds.foldl (fun a c => a * 10 + (c.toNat - 48)) 0

/-- Numeric value of a list of hexadecimal digit characters. -/
def hexDigitsToNat (ds : List Char) : Nat :=
  ds.foldl (fun a c =>
    a * 16 +
      (if c.isDigit then c.toNat - 48
       else if 'a' ≤ c ∧ c ≤ 'f' then c.toNat - 87
       else c.toNat - 55)) 0

/-- Is the character a hexadecimal digit? -/
def isHexDigit (c : Char) : Bool :=
  c.isDigit || ('a' ≤ c && c ≤ 'f') || ('A' ≤ c && c ≤ 'F')

/-- Parse a maximal non-empty run of leading decimal digits; `none` models
`NaN` (no digit found). -/
def parseDecList (cs : List Char) : Option Nat :=
  let ds := cs.takeWhile Char.isDigit
  if ds.isEmpty then none else some (digitsToNat ds)

/-- Parse a maximal non-empty run of leading hexadecimal digits. -/
def parseHexList (cs : List Char) : Option Nat :=
  let ds := cs.takeWhile isHexDigit
  if ds.isEmpty then none else some (hexDigitsToNat ds)

/-- Unsigned part of JavaScript `parseInt(s)` with no radix argument: a
`0x` / `0X` prefix switches to base 16, otherwise base 10 is used. -/
def parseUnsigned (cs : List Char) : Option Nat :=
  match cs with
  | c0 :: c1 :: rest =>
      if c0 = '0' ∧ (c1 = 'x' ∨ c1 = 'X') then parseHexList rest
      else parseDecList cs
  | _ => parseDecList cs

/-- JavaScript `parseInt(s)` (radix omitted, as in the source): leading
whitespace is skipped, an optional sign is read, then digits in base 10 —
or base 16 after a `0x` / `0X` prefix.  `none` models `NaN`. -/
def parseIntJS (s : String) : Option Int :=
  match s.data.dropWhile Char.isWhitespace with
  | [] => none
  | c :: rest =>
      if c = '-' then (parseUnsigned rest).map (fun n => -(n : Int))
      else if c = '+' then (parseUnsigned rest).map (fun n => (n : Int))
      else (parseUnsigned (c :: rest)).map (fun n => (n : Int))

/-- JavaScript `s.padStart(3, '0')`. -/
def padStart3 (s : String) : String :=
  String.mk (List.replicate (3 - s.data.length) '0' ++ s.data)

/-- SQL `substring(s from k)` (1-indexed, through the end of the string). -/
def sqlSubstringFrom (k : Nat) (s : String) : String :=
  String.mk (s.data.drop (k - 1))

/-- Lexicographic (bytewise) strict comparison of character lists, the
order Postgres uses on `text` values for the ASCII data stored here. -/
def listCharLt : List Char → List Char → Bool
  | [], [] => false
  | [], _ :: _ => true
  | _ :: _, [] => false
  | a :: as, b :: bs =>
      if a < b then true else if b < a then false else listCharLt as bs

/-- Lexicographically larger of two strings (SQL `max` comparison step on
`text` values). -/
def strMax (a b : String) : String :=
  if listCharLt a.data b.data then b else a

/-- SQL `max(...)` over the column values of a table: `NULL` (`none`) on an
empty table, the lexicographically greatest value otherwise. -/
def sqlMaxString (xs : List String) : Option String :=
  xs.foldl
    (fun acc s =>
      match acc with
      | none => some s
      | some m => some (strMax m s))
    none

/-!  ## Data model (`@shared/schema`)  -/

/-- Row of the `users` table. -/
structure User where
  id : Int
  username : String
  password : String
  name : String
  role : String
  deriving Repr, DecidableEq

/-- A user object with the `password` field stripped
(`const { password, ...userInfo } = user`). -/
structure UserInfo where
  id : Int
  username : String
  name : String
  role : String
  deriving Repr, DecidableEq

/-- The rest-spread `const { password, ...userInfo } = user`: every field of
the stored user except `password`. -/
def stripPassword (u : User) : UserInfo :=
  ⟨u.id, u.username, u.name, u.role⟩

/-- `insertUserSchema` payload: `username`, `password`, `name` required,
`role` optional (the column has a database default). -/
structure InsertUser where
  username : String
  password : String
  name : String
  role : Option String
  deriving Repr, DecidableEq

/-- Shared row shape of the `expenses` and `gains` tables
(`transactionFields` in the schema). -/
structure TransactionRecord where
  id : Int
  slNo : String
  date : String
  time : String
  name : String
  type : String
  detail : String
  paymentType : String
  amount : Int
  createdBy : Int
  deriving Repr, DecidableEq

/-- A client-supplied body for `POST /api/expenses` / `POST /api/gains`
that passes the insert schema; `createdBy` is whatever the client sent (it
is overwritten by the handler before the record is stored). -/
structure TransactionBody where
  slNo : String
  date : String
  time : String
  name : String
  type : String
  detail : String
  paymentType : String
  amount : Int
  createdBy : Option Int
  deriving Repr, DecidableEq

/-- A `PUT` body (`Partial<InsertExpense>` at the type level — but the
route passes `req.body` through unvalidated, so every column of the table,
`id` included, is settable at runtime).  `none` fields are absent. -/
structure TransactionPatch where
  id : Option Int := none
  slNo : Option String := none
  date : Option String := none
  time : Option String := none
  name : Option String := none
  type : Option String := none
  detail : Option String := none
  paymentType : Option String := none
  amount : Option Int := none
  createdBy : Option Int := none
  deriving Repr, DecidableEq

/-- The relational store: the three tables plus the serial-column counters
of the database (Postgres sequences increase on every insert and are not
reset by deletes). -/
structure Store where
  users : List User
  expenses : List TransactionRecord
  gains : List TransactionRecord
  nextUserId : Int
  nextExpenseId : Int
  nextGainId : Int
  deriving Repr, DecidableEq

/-- Session state bound to the request (`req.session.userId`). -/
structure Session where
  userId : Option Int
  deriving Repr, DecidableEq

/-!  ## Storage layer (`DatabaseStorage`)  -/

/-- `getUser(id)`: `SELECT * FROM users WHERE id = $1` (first row). -/
def getUser (st : Store) (id : Int) : Option User :=
  st.users.find? (fun u => u.id == id)

/-- `getUserByUsername(username)`. -/
def getUserByUsername (st : Store) (username : String) : Option User :=
  st.users.find? (fun u => u.username == username)

/-- `createUser(insertUser)`: the stored role is
`insertUser.role || 'staff'` — JavaScript `||` replaces both `undefined`
and the empty string by `'staff'`.  The database assigns the serial id. -/
def createUser (st : Store) (u : InsertUser) : User × Store :=
  let role :=
    match u.role with
    | none => "staff"
    | some r => if r = "" then "staff" else r
  let user : User := ⟨st.nextUserId, u.username, u.password, u.name, role⟩
  (user, { st with users := st.users ++ [user], nextUserId := st.nextUserId + 1 })

/-- Insert payload for a transaction record (`InsertExpense` /
`InsertGain`): every column except the serial `id`. -/
structure InsertTransaction where
  slNo : String
  date : String
  time : String
  name : String
  type : String
  detail : String
  paymentType : String
  amount : Int
  createdBy : Int
  deriving Repr, DecidableEq

/-- `createExpense(insertExpense)`: insert with a database-assigned serial
id, returning the persisted row. -/
def createExpense (st : Store) (e : InsertTransaction) : TransactionRecord × Store :=
  let row : TransactionRecord :=
    ⟨st.nextExpenseId, e.slNo, e.date, e.time, e.name, e.type, e.detail,
      e.paymentType, e.amount, e.createdBy⟩
  (row, { st with expenses := st.expenses ++ [row], nextExpenseId := st.nextExpenseId + 1 })

/-- `createGain(insertGain)`. -/
def createGain (st : Store) (g : InsertTransaction) : TransactionRecord × Store :=
  let row : TransactionRecord :=
    ⟨st.nextGainId, g.slNo, g.date, g.time, g.name, g.type, g.detail,
      g.paymentType, g.amount, g.createdBy⟩
  (row, { st with gains := st.gains ++ [row], nextGainId := st.nextGainId + 1 })

/-- Comparator of `ORDER BY date DESC`: row `a` comes before row `b` when
`b.date ≤ a.date` (lexicographic on the stored date strings). -/
def dateDescLe (a b : TransactionRecord) : Bool :=
  b.date ≤ a.date

/-- `getExpenses()`: `SELECT * FROM expenses ORDER BY date DESC`. -/
def getExpenses (st : Store) : List TransactionRecord :=
  st.expenses.mergeSort dateDescLe

/-- `getGains()`: `SELECT * FROM gains ORDER BY date DESC`. -/
def getGains (st : Store) : List TransactionRecord :=
  st.gains.mergeSort dateDescLe

/-- `getExpense(id)`. -/
def getExpense (st : Store) (id : Int) : Option TransactionRecord :=
  st.expenses.find? (fun e => e.id == id)

/-- `getGain(id)`. -/
def getGain (st : Store) (id : Int) : Option TransactionRecord :=
  st.gains.find? (fun g => g.id == id)

/-- Modelled from the spec: the `UPDATE … SET … WHERE id = $1` executed by
the external query builder / database (not part of `src/`), per §4.2 —
every field present in the partial map is applied verbatim, unspecified
fields are retained from the existing row. -/
def applyPatch (r : TransactionRecord) (p : TransactionPatch) : TransactionRecord :=
  { id := p.id.getD r.id
    slNo := p.slNo.getD r.slNo
    date := p.date.getD r.date
    time := p.time.getD r.time
    name := p.name.getD r.name
    type := p.type.getD r.type
    detail := p.detail.getD r.detail
    paymentType := p.paymentType.getD r.paymentType
    amount := p.amount.getD r.amount
    createdBy := p.createdBy.getD r.createdBy }

/-- `updateExpense(id, expenseUpdate)`: update the matching row and return
it (`RETURNING`); `none` when no row matches. -/
def updateExpense (st : Store) (id : Int) (p : TransactionPatch) :
    Option TransactionRecord × Store :=
  let updated := st.expenses.map (fun r => if r.id == id then applyPatch r p else r)
  ((st.expenses.find? (fun r => r.id == id)).map (fun r => applyPatch r p),
    { st with expenses := updated })

/-- `updateGain(id, gainUpdate)`. -/
def updateGain (st : Store) (id : Int) (p : TransactionPatch) :
    Option TransactionRecord × Store :=
  let updated := st.gains.map (fun r => if r.id == id then applyPatch r p else r)
  ((st.gains.find? (fun r => r.id == id)).map (fun r => applyPatch r p),
    { st with gains := updated })

/-- `deleteExpense(id)`: delete matching rows, report whether any row was
removed. -/
def deleteExpense (st : Store) (id : Int) : Bool × Store :=
  (st.expenses.any (fun r => r.id == id),
    { st with expenses := st.expenses.filter (fun r => !(r.id == id)) })

/-- `deleteGain(id)`. -/
def deleteGain (st : Store) (id : Int) : Bool × Store :=
  (st.gains.any (fun r => r.id == id),
    { st with gains := st.gains.filter (fun r => !(r.id == id)) })

/-- `getNextExpenseSlNo()`: SQL `max(substring(slNo from 4))` — a
lexicographic maximum over the suffix strings, `NULL` on an empty table —
then `counter = parseInt(max) + 1` (1 when the maximum is `NULL` or the
empty string, both falsy), rendered as
``EXP${String(counter).padStart(3, '0')}``.  A `parseInt` producing `NaN`
propagates: `String(NaN)` is `"NaN"`. -/
def getNextExpenseSlNo (st : Store) : String :=
  let maxSlNo := sqlMaxString (st.expenses.map (fun e => sqlSubstringFrom 4 e.slNo))
  let counter : Option Int :=
    match maxSlNo with
    | none => some 1
    | some s => if s = "" then some 1 else (parseIntJS s).map (· + 1)
  match counter with
  | none => "EXP" ++ padStart3 "NaN"
  | some c => "EXP" ++ padStart3 (intToString c)

/-- `getNextGainSlNo()`: as for expenses, with prefix `GN` and SQL
`substring(slNo from 3)`. -/
def getNextGainSlNo (st : Store) : String :=
  let maxSlNo := sqlMaxString (st.gains.map (fun g => sqlSubstringFrom 3 g.slNo))
  let counter : Option Int :=
    match maxSlNo with
    | none => some 1
    | some s => if s = "" then some 1 else (parseIntJS s).map (· + 1)
  match counter with
  | none => "GN" ++ padStart3 "NaN"
  | some c => "GN" ++ padStart3 (intToString c)

/-!  ## Request handlers (`registerRoutes`)  -/

/-- A response body as serialized by the handlers. -/
inductive RespBody where
  | msg (m : String)
  | user (u : UserInfo)
  | record (r : TransactionRecord)
  | records (rs : List TransactionRecord)
  | slNo (s : String)
  | empty
  deriving Repr, DecidableEq

/-- Outcome of handling one request: HTTP status, JSON body, and the store
and session after the request. -/
structure HResult where
  status : Nat
  body : RespBody
  store : Store
  session : Session
  deriving Repr, DecidableEq

/-- The `authenticate` middleware: 401 when the session carries no user id
or the id no longer resolves; otherwise the handler body runs with the
resolved user. -/
def withAuth (st : Store) (sess : Session) (k : User → HResult) : HResult :=
  match sess.userId with
  | none => ⟨401, .msg "Not authenticated", st, sess⟩
  | some uid =>
      match getUser st uid with
      | none => ⟨401, .msg "User not found", st, sess⟩
      | some u => k u

/-- The `requireAdmin` middleware: 403 unless the authenticated user's role
is `"admin"`. -/
def withAdmin (st : Store) (sess : Session) (u : User) (k : Unit → HResult) : HResult :=
  if u.role ≠ "admin" then ⟨403, .msg "Forbidden: Admin access required", st, sess⟩
  else k ()

/-- `POST /api/login`.  Request fields are modelled as strings; JavaScript
`!username` is true exactly for the empty string there. -/
def loginHandler (st : Store) (sess : Session) (username password : String) : HResult :=
  if username = "" ∨ password = "" then
    ⟨400, .msg "Username and password are required", st, sess⟩
  else
    match getUserByUsername st username with
    | none => ⟨401, .msg "Invalid username or password", st, sess⟩
    | some u =>
        if u.password ≠ password then
          ⟨401, .msg "Invalid username or password", st, sess⟩
        else
          ⟨200, .user (stripPassword u), st, ⟨some u.id⟩⟩

/-- `GET /api/users/me`. -/
def meHandler (st : Store) (sess : Session) : HResult :=
  withAuth st sess fun u => ⟨200, .user (stripPassword u), st, sess⟩

/-- `POST /api/users` (body already past `insertUserSchema.parse`). -/
def createUserHandler (st : Store) (sess : Session) (body : InsertUser) : HResult :=
  withAuth st sess fun u =>
    withAdmin st sess u fun _ =>
      match getUserByUsername st body.username with
      | some _ => ⟨400, .msg "Username already exists", st, sess⟩
      | none =>
          let (newUser, st') := createUser st body
          ⟨201, .user (stripPassword newUser), st', sess⟩

/-- `GET /api/expenses`. -/
def getExpensesHandler (st : Store) (sess : Session) : HResult :=
  withAuth st sess fun _ => ⟨200, .records (getExpenses st), st, sess⟩

/-- `GET /api/gains`. -/
def getGainsHandler (st : Store) (sess : Session) : HResult :=
  withAuth st sess fun _ => ⟨200, .records (getGains st), st, sess⟩

/-- `POST /api/expenses`: `insertExpenseSchema.parse({...req.body,
createdBy: user.id})` — the spread is overwritten, so `createdBy` is always
the session user's id. -/
def createExpenseHandler (st : Store) (sess : Session) (body : TransactionBody) : HResult :=
  withAuth st sess fun u =>
    let data : InsertTransaction :=
      ⟨body.slNo, body.date, body.time, body.name, body.type, body.detail,
        body.paymentType, body.amount, u.id⟩
    let (newExpense, st') := createExpense st data
    ⟨201, .record newExpense, st', sess⟩

/-- `POST /api/gains`. -/
def createGainHandler (st : Store) (sess : Session) (body : TransactionBody) : HResult :=
  withAuth st sess fun u =>
    let data : InsertTransaction :=
      ⟨body.slNo, body.date, body.time, body.name, body.type, body.detail,
        body.paymentType, body.amount, u.id⟩
    let (newGain, st') := createGain st data
    ⟨201, .record newGain, st', sess⟩

/-- `PUT /api/expenses/:id`: admin-gated; `parseInt` on the path parameter,
400 only on `NaN`; 404 when no row has the parsed id; otherwise the
unvalidated body is applied as a partial update. -/
def putExpenseHandler (st : Store) (sess : Session) (idParam : String)
    (patch : TransactionPatch) : HResult :=
  withAuth st sess fun u =>
    withAdmin st sess u fun _ =>
      match parseIntJS idParam with
      | none => ⟨400, .msg "Invalid expense ID", st, sess⟩
      | some id =>
          match getExpense st id with
          | none => ⟨404, .msg "Expense not found", st, sess⟩
          | some _ =>
              let (ret, st') := updateExpense st id patch
              match ret with
              | some r => ⟨200, .record r, st', sess⟩
              | none => ⟨200, .empty, st', sess⟩

/-- `DELETE /api/expenses/:id`. -/
def deleteExpenseHandler (st : Store) (sess : Session) (idParam : String) : HResult :=
  withAuth st sess fun u =>
    withAdmin st sess u fun _ =>
      match parseIntJS idParam with
      | none => ⟨400, .msg "Invalid expense ID", st, sess⟩
      | some id =>
          match getExpense st id with
          | none => ⟨404, .msg "Expense not found", st, sess⟩
          | some _ =>
              let (_, st') := deleteExpense st id
              ⟨200, .msg "Expense deleted successfully", st', sess⟩

/-- `PUT /api/gains/:id`. -/
def putGainHandler (st : Store) (sess : Session) (idParam : String)
    (patch : TransactionPatch) : HResult :=
  withAuth st sess fun u =>
    withAdmin st sess u fun _ =>
      match parseIntJS idParam with
      | none => ⟨400, .msg "Invalid gain ID", st, sess⟩
      | some id =>
          match getGain st id with
          | none => ⟨404, .msg "Gain not found", st, sess⟩
          | some _ =>
              let (ret, st') := updateGain st id patch
              match ret with
              | some r => ⟨200, .record r, st', sess⟩
              | none => ⟨200, .empty, st', sess⟩

/-- `DELETE /api/gains/:id`. -/
def deleteGainHandler (st : Store) (sess : Session) (idParam : String) : HResult :=
  withAuth st sess fun u =>
    withAdmin st sess u fun _ =>
      match parseIntJS idParam with
      | none => ⟨400, .msg "Invalid gain ID", st, sess⟩
      | some id =>
          match getGain st id with
          | none => ⟨404, .msg "Gain not found", st, sess⟩
          | some _ =>
              let (_, st') := deleteGain st id
              ⟨200, .msg "Gain deleted successfully", st', sess⟩

/-!  ## Concrete fixtures used by witnesses  -/

/-- An empty store (fresh database). -/
def emptyStore : Store := ⟨[], [], [], 1, 1, 1⟩

/-- The seeded admin account. -/
def adminUser : User := ⟨1, "admin", "786786", "Admin User", "admin"⟩

/-- The seeded staff account. -/
def staffUser : User := ⟨2, "staff1", "1234", "Staff User", "staff"⟩

/-- Store holding the two seeded accounts. -/
def seededStore : Store := ⟨[adminUser, staffUser], [], [], 3, 1, 1⟩

/-- A transaction record with a given id, slNo and date (other fields
fixed), used to build concrete table states. -/
def sampleRec (i : Int) (slNo date : String) : TransactionRecord :=
  ⟨i, slNo, date, "10:00", "n", "t", "d", "cash", 5, 1⟩

/-- Store whose expense table holds slNo suffixes 999 and 1000 — a state
the create flow itself reaches after a thousand records. -/
def slNoOverflowStore : Store :=
  { seededStore with
      expenses := [sampleRec 1 "EXP999" "2024-01-01", sampleRec 2 "EXP1000" "2024-01-02"],
      nextExpenseId := 3 }

/-- Store holding a user whose stored password is the empty string (such a
user passes `insertUserSchema`, which only requires a string). -/
def emptyPasswordStore : Store := ⟨[⟨1, "alice", "", "Alice", "staff"⟩], [], [], 2, 1, 1⟩

/-- Store with one expense and one gain, used for concrete admin-session
witnesses. -/
def oneOfEachStore : Store :=
  { seededStore with
      expenses := [sampleRec 1 "EXP001" "2024-01-01"], nextExpenseId := 2,
      gains := [sampleRec 1 "GN001" "2024-01-01"], nextGainId := 2 }

/-- Does a suffix have the counter shape of the slNo format: decimal
digits zero-padded to 3 positions but not beyond (so length exactly 3, or
longer with no leading zero)? -/
def isCounterSuffix (cs : List Char) : Bool :=
  decide (3 ≤ cs.length) && cs.all Char.isDigit &&
    (decide (cs.length = 3) || decide (cs.headD 'A' ≠ '0'))

/-- `EXP` + counter shape of an expense slNo. -/
def isExpenseSlNo (s : String) : Bool :=
  match s.data with
  | 'E' :: 'X' :: 'P' :: cs => isCounterSuffix cs
  | _ => false

/-- `GN` + counter shape of a gain slNo. -/
def isGainSlNo (s : String) : Bool :=
  match s.data with
  | 'G' :: 'N' :: cs => isCounterSuffix cs
  | _ => false

/-- Store with expense ids 0 and 16, exercising the hexadecimal
auto-detection of `parseInt` on the `:id` parameter. -/
def hexIdStore : Store :=
  { seededStore with
      expenses := [sampleRec 0 "EXP000" "2024-01-01", sampleRec 16 "EXP016" "2024-01-02"],
      nextExpenseId := 17 }

/-!  ## Arithmetic and parsing lemmas  -/

theorem natDecimalAux_zero (fuel : Nat) (acc : List Char) :
    natDecimalAux fuel 0 acc = acc := by
  cases fuel <;> simp [natDecimalAux]

theorem natDecimalAux_append (fuel : Nat) :
    ∀ (n : Nat) (acc : List Char),
      natDecimalAux fuel n acc = natDecimalAux fuel n [] ++ acc := by
  induction fuel with
  | zero => intro n acc; simp [natDecimalAux]
  | succ f ih =>
      intro n acc
      by_cases h : n = 0
      · simp [natDecimalAux, h]
      · simp only [natDecimalAux, if_neg h]
        rw [ih (n / 10) (Char.ofNat (48 + n % 10) :: acc),
          ih (n / 10) [Char.ofNat (48 + n % 10)]]
        simp

theorem digitChar_isDigit (k : Nat) (hk : k < 10) :
    (Char.ofNat (48 + k)).isDigit = true := by
  interval_cases k <;> decide

theorem digitChar_ne_zero (k : Nat) (h1 : 1 ≤ k) (hk : k < 10) :
    Char.ofNat (48 + k) ≠ '0' := by
  interval_cases k <;> decide

theorem digitChar_toNat (k : Nat) (hk : k < 10) :
    (Char.ofNat (48 + k)).toNat = 48 + k := by
  interval_cases k <;> decide

theorem digitsToNat_append_singleton (l : List Char) (c : Char) :
    digitsToNat (l ++ [c]) = 10 * digitsToNat l + (c.toNat - 48) := by
  simp [digitsToNat, List.foldl_append, Nat.mul_comm]

/-- For `1 ≤ n ≤ fuel` the fuel-based digit renderer produces a non-empty
digit string without a leading zero whose value is `n`. -/
theorem natDecimalAux_spec : ∀ (fuel n : Nat), 1 ≤ n → n ≤ fuel →
    natDecimalAux fuel n [] ≠ []
      ∧ (∀ c ∈ natDecimalAux fuel n [], c.isDigit = true)
      ∧ (∀ c, (natDecimalAux fuel n []).head? = some c → c ≠ '0')
      ∧ digitsToNat (natDecimalAux fuel n []) = n := by
  intro fuel
  induction fuel with
  | zero => intro n h1 h2; omega
  | succ f ih =>
      intro n h1 h2
      have hne : ¬ (n = 0) := by omega
      have hmod : n % 10 < 10 := Nat.mod_lt _ (by omega)
      simp only [natDecimalAux, if_neg hne]
      by_cases hsmall : n < 10
      · have hq : n / 10 = 0 := Nat.div_eq_of_lt hsmall
        have hm : n % 10 = n := Nat.mod_eq_of_lt hsmall
        rw [hq, natDecimalAux_zero]
        refine ⟨by simp, ?_, ?_, ?_⟩
        · intro x hx
          simp only [List.mem_singleton] at hx
          subst hx
          exact digitChar_isDigit _ hmod
        · intro x hx
          simp only [List.head?_cons, Option.some.injEq] at hx
          subst hx
          rw [hm]
          exact digitChar_ne_zero n h1 hsmall
        · show digitsToNat ([] ++ [Char.ofNat (48 + n % 10)]) = n
          rw [digitsToNat_append_singleton, digitChar_toNat _ hmod]
          simp [digitsToNat]
          omega
      · have hq1 : 1 ≤ n / 10 := (Nat.one_le_div_iff (by omega)).mpr (by omega)
        have hq2 : n / 10 ≤ f := by
          have := Nat.div_lt_self (show 0 < n by omega) (show 1 < 10 by omega)
          omega
        obtain ⟨hne2, hdig, hhead, hval⟩ := ih (n / 10) hq1 hq2
        rw [natDecimalAux_append]
        refine ⟨by simp [hne2], ?_, ?_, ?_⟩
        · intro x hx
          rcases List.mem_append.mp hx with hx | hx
          · exact hdig x hx
          · simp only [List.mem_singleton] at hx
            subst hx
            exact digitChar_isDigit _ hmod
        · intro x hx
          obtain ⟨a, t, hat⟩ := List.exists_cons_of_ne_nil hne2
          rw [hat] at hx
          simp only [List.cons_append, List.head?_cons, Option.some.injEq] at hx
          subst hx
          exact hhead a (by rw [hat]; rfl)
        · rw [digitsToNat_append_singleton, hval, digitChar_toNat _ hmod]
          omega

/-- `String(n)` renders a non-empty all-digit string whose numeric value
is `n`, with no leading zero when `n ≥ 1`. -/
theorem natToDecimal_spec (n : Nat) :
    (natToDecimal n).data ≠ []
      ∧ (∀ c ∈ (natToDecimal n).data, c.isDigit = true)
      ∧ digitsToNat (natToDecimal n).data = n
      ∧ (1 ≤ n → ∀ c, (natToDecimal n).data.head? = some c → c ≠ '0') := by
  by_cases h : n = 0
  · subst h
    exact ⟨by decide, by decide, by decide, by omega⟩
  · obtain ⟨h1, h2, h3, h4⟩ := natDecimalAux_spec n n (by omega) le_rfl
    simp only [natToDecimal, if_neg h]
    exact ⟨h1, h2, h4, fun _ => h3⟩

theorem isDigit_not_whitespace {c : Char} (h : c.isDigit = true) :
    c.isWhitespace = false := by
  rcases Bool.eq_false_or_eq_true c.isWhitespace with ht | hf
  on_goal 2 => exact hf
  · exfalso
    have hw : ((c = ' ' ∨ c = '\t') ∨ c = '\r') ∨ c = '\n' := by
      simpa [Char.isWhitespace] using ht
    rcases hw with ((rfl | rfl) | rfl) | rfl <;> exact absurd h (by decide)

theorem ne_of_isDigit {c d : Char} (h : c.isDigit = true) (hd : d.isDigit = false) :
    c ≠ d := by
  intro he
  rw [he, hd] at h
  cases h

theorem parseDecList_leading_digits (ds rest : List Char) (hne : ds ≠ [])
    (hd : ∀ c ∈ ds, c.isDigit = true)
    (hr : ∀ c, rest.head? = some c → c.isDigit = false) :
    parseDecList (ds ++ rest) = some (digitsToNat ds) := by
  unfold parseDecList
  rw [List.takeWhile_append_of_pos hd]
  have hrest : rest.takeWhile Char.isDigit = [] := by
    cases rest with
    | nil => rfl
    | cons a t => simp [List.takeWhile_cons, hr a rfl]
  rw [hrest, List.append_nil]
  cases ds with
  | nil => exact absurd rfl hne
  | cons d t => rfl

theorem parseUnsigned_digits (ds rest : List Char) (hne : ds ≠ [])
    (hd : ∀ c ∈ ds, c.isDigit = true)
    (hr : ∀ c, rest.head? = some c → c.isDigit = false)
    (hhex : ds = ['0'] → ∀ c, rest.head? = some c → c ≠ 'x' ∧ c ≠ 'X') :
    parseUnsigned (ds ++ rest) = some (digitsToNat ds) := by
  have hdec := parseDecList_leading_digits ds rest hne hd hr
  cases ds with
  | nil => exact absurd rfl hne
  | cons d0 dt =>
      cases dt with
      | nil =>
          cases rest with
          | nil => simpa [parseUnsigned] using hdec
          | cons r0 rt =>
              show parseUnsigned (d0 :: r0 :: rt) = some (digitsToNat [d0])
              rw [show parseUnsigned (d0 :: r0 :: rt) =
                  (if d0 = '0' ∧ (r0 = 'x' ∨ r0 = 'X') then parseHexList rt
                   else parseDecList (d0 :: r0 :: rt)) from rfl]
              rw [if_neg ?hc]
              · exact hdec
              case hc =>
                rintro ⟨h0, hx⟩
                subst h0
                rcases hx with rfl | rfl
                · exact (hhex rfl 'x' rfl).1 rfl
                · exact (hhex rfl 'X' rfl).2 rfl
      | cons d1 dt2 =>
          show parseUnsigned (d0 :: d1 :: (dt2 ++ rest)) = _
          rw [show parseUnsigned (d0 :: d1 :: (dt2 ++ rest)) =
              (if d0 = '0' ∧ (d1 = 'x' ∨ d1 = 'X') then parseHexList (dt2 ++ rest)
               else parseDecList (d0 :: d1 :: (dt2 ++ rest))) from rfl]
          rw [if_neg ?hc2]
          · simpa using hdec
          case hc2 =>
            rintro ⟨h0, hx⟩
            have hd1 : d1.isDigit = true := hd d1 (by simp)
            rcases hx with rfl | rfl <;> exact absurd hd1 (by decide)

theorem parseIntJS_leading_digits (ds rest : List Char) (hne : ds ≠ [])
    (hd : ∀ c ∈ ds, c.isDigit = true)
    (hr : ∀ c, rest.head? = some c → c.isDigit = false)
    (hhex : ds = ['0'] → ∀ c, rest.head? = some c → c ≠ 'x' ∧ c ≠ 'X') :
    parseIntJS (String.mk (ds ++ rest)) = some ((digitsToNat ds : Nat) : Int) := by
  unfold parseIntJS
  obtain ⟨d0, dt, rfl⟩ := List.exists_cons_of_ne_nil hne
  have hd0 : d0.isDigit = true := hd d0 (by simp)
  show (match (d0 :: (dt ++ rest)).dropWhile Char.isWhitespace with
    | [] => none
    | c :: rest =>
        if c = '-' then (parseUnsigned rest).map (fun n => -(n : Int))
        else if c = '+' then (parseUnsigned rest).map (fun n => (n : Int))
        else (parseUnsigned (c :: rest)).map (fun n => (n : Int))) = _
  rw [List.dropWhile_cons, isDigit_not_whitespace hd0]
  simp only [Bool.false_eq_true, if_false]
  rw [if_neg (ne_of_isDigit hd0 (by decide)), if_neg (ne_of_isDigit hd0 (by decide))]
  rw [show d0 :: (dt ++ rest) = (d0 :: dt) ++ rest from rfl,
    parseUnsigned_digits (d0 :: dt) rest hne hd hr hhex]
  rfl

theorem sqlMaxString_fold_mem (xs : List String) :
    ∀ (a m : String),
      xs.foldl
          (fun acc s =>
            match acc with
            | none => some s
            | some mm => some (strMax mm s))
          (some a) = some m →
        m = a ∨ m ∈ xs := by
  induction xs with
  | nil =>
      intro a m h
      simp at h
      exact Or.inl h.symm
  | cons x t ih =>
      intro a m h
      simp only [List.foldl_cons] at h
      rcases ih (strMax a x) m h with h1 | h1
      · unfold strMax at h1
        by_cases hc : listCharLt a.data x.data
        · rw [if_pos hc] at h1
          exact Or.inr (by simp [h1])
        · rw [if_neg hc] at h1
          exact Or.inl h1
      · exact Or.inr (List.mem_cons_of_mem _ h1)

/-- The SQL `max` of a column, when non-`NULL`, is one of the column
values. -/
theorem sqlMaxString_mem (xs : List String) (m : String)
    (h : sqlMaxString xs = some m) : m ∈ xs := by
  cases xs with
  | nil => cases h
  | cons x t =>
      unfold sqlMaxString at h
      simp only [List.foldl_cons] at h
      rcases sqlMaxString_fold_mem t x m h with h1 | h1
      · simp [h1]
      · exact List.mem_cons_of_mem _ h1

theorem isCounterSuffix_elim {cs : List Char} (h : isCounterSuffix cs = true) :
    3 ≤ cs.length ∧ (∀ c ∈ cs, c.isDigit = true)
      ∧ (cs.length = 3 ∨ cs.headD 'A' ≠ '0') := by
  simp only [isCounterSuffix, Bool.and_eq_true, Bool.or_eq_true, decide_eq_true_eq,
    List.all_eq_true] at h
  tauto

theorem isExpenseSlNo_elim {s : String} (h : isExpenseSlNo s = true) :
    ∃ cs, s.data = 'E' :: 'X' :: 'P' :: cs ∧ isCounterSuffix cs = true := by
  unfold isExpenseSlNo at h
  split at h
  · next cs heq => exact ⟨cs, heq, h⟩
  · cases h

theorem isGainSlNo_elim {s : String} (h : isGainSlNo s = true) :
    ∃ cs, s.data = 'G' :: 'N' :: cs ∧ isCounterSuffix cs = true := by
  unfold isGainSlNo at h
  split at h
  · next cs heq => exact ⟨cs, heq, h⟩
  · cases h

/-- Padding the decimal of a positive counter to three positions yields
exactly the counter shape of the slNo format. -/
theorem padStart3_isCounterSuffix (k : Nat) (h1 : 1 ≤ k) :
    isCounterSuffix (padStart3 (natToDecimal k)).data = true := by
  obtain ⟨hne, hd, hval, hhead⟩ := natToDecimal_spec k
  show isCounterSuffix
    (List.replicate (3 - (natToDecimal k).data.length) '0' ++ (natToDecimal k).data) = true
  simp only [isCounterSuffix, Bool.and_eq_true, Bool.or_eq_true, decide_eq_true_eq,
    List.all_eq_true]
  have hL : 1 ≤ (natToDecimal k).data.length := by
    cases hc : (natToDecimal k).data with
    | nil => exact absurd hc hne
    | cons a t => simp
  refine ⟨⟨by rw [List.length_append, List.length_replicate]; omega, ?_⟩, ?_⟩
  · intro c hc
    rcases List.mem_append.mp hc with hc | hc
    · rw [List.eq_of_mem_replicate hc]; decide
    · exact hd c hc
  · by_cases hlen : (natToDecimal k).data.length ≤ 3
    · left
      rw [List.length_append, List.length_replicate]
      omega
    · right
      have hrep : 3 - (natToDecimal k).data.length = 0 := by omega
      rw [hrep]
      simp only [List.replicate_zero, List.nil_append]
      obtain ⟨a, t, hat⟩ := List.exists_cons_of_ne_nil hne
      rw [hat]
      simp only [List.headD_cons]
      exact hhead h1 a (by rw [hat]; rfl)

theorem intToString_succ_cast (w : Nat) :
    intToString ((w : Int) + 1) = natToDecimal (w + 1) := by
  have hcast : ((w : Int) + 1) = ((w + 1 : Nat) : Int) := by push_cast; ring
  rw [hcast]
  unfold intToString
  rw [if_neg (by omega), Int.toNat_natCast]

/-- If every stored expense slNo has the `EXP` + counter shape, the next
generated slNo has it too. -/
theorem getNextExpenseSlNo_format (st : Store)
    (h : ∀ e ∈ st.expenses, isExpenseSlNo e.slNo = true) :
    isExpenseSlNo (getNextExpenseSlNo st) = true := by
  unfold getNextExpenseSlNo
  cases hmax : sqlMaxString (st.expenses.map (fun e => sqlSubstringFrom 4 e.slNo)) with
  | none => simp only [hmax]; decide
  | some m =>
      simp only [hmax]
      obtain ⟨e, he, hfe⟩ := List.mem_map.mp (sqlMaxString_mem _ _ hmax)
      obtain ⟨cs, hdata, hcnt⟩ := isExpenseSlNo_elim (h e he)
      obtain ⟨hlen, hdig, _⟩ := isCounterSuffix_elim hcnt
      have hmdata : m.data = cs := by
        rw [← hfe]
        show (e.slNo.data.drop 3 : List Char) = cs
        rw [hdata]
        rfl
      have hcs_ne : cs ≠ [] := by
        intro hc
        rw [hc] at hlen
        simp at hlen
      have hmne : ¬ (m = "") := by
        intro hmm
        rw [hmm] at hmdata
        exact hcs_ne hmdata.symm
      rw [if_neg hmne]
      have hparse : parseIntJS m = some ((digitsToNat cs : Nat) : Int) := by
        have hm2 : m = String.mk (cs ++ []) := by
          rw [List.append_nil]
          cases m with
          | mk d => cases hmdata; rfl
        rw [hm2]
        exact parseIntJS_leading_digits cs [] hcs_ne hdig
          (fun c hc => by simp at hc) (fun _ c hc => by simp at hc)
      rw [hparse]
      show isExpenseSlNo ("EXP" ++ padStart3 (intToString ((digitsToNat cs : Int) + 1))) = true
      rw [intToString_succ_cast]
      have hpad := padStart3_isCounterSuffix (digitsToNat cs + 1) (by omega)
      show isCounterSuffix (padStart3 (natToDecimal (digitsToNat cs + 1))).data = true
      exact hpad

/-- If every stored gain slNo has the `GN` + counter shape, the next
generated slNo has it too. -/
theorem getNextGainSlNo_format (st : Store)
    (h : ∀ g ∈ st.gains, isGainSlNo g.slNo = true) :
    isGainSlNo (getNextGainSlNo st) = true := by
  unfold getNextGainSlNo
  cases hmax : sqlMaxString (st.gains.map (fun g => sqlSubstringFrom 3 g.slNo)) with
  | none => simp only [hmax]; decide
  | some m =>
      simp only [hmax]
      obtain ⟨g, hg, hfg⟩ := List.mem_map.mp (sqlMaxString_mem _ _ hmax)
      obtain ⟨cs, hdata, hcnt⟩ := isGainSlNo_elim (h g hg)
      obtain ⟨hlen, hdig, _⟩ := isCounterSuffix_elim hcnt
      have hmdata : m.data = cs := by
        rw [← hfg]
        show (g.slNo.data.drop 2 : List Char) = cs
        rw [hdata]
        rfl
      have hcs_ne : cs ≠ [] := by
        intro hc
        rw [hc] at hlen
        simp at hlen
      have hmne : ¬ (m = "") := by
        intro hmm
        rw [hmm] at hmdata
        exact hcs_ne hmdata.symm
      rw [if_neg hmne]
      have hparse : parseIntJS m = some ((digitsToNat cs : Nat) : Int) := by
        have hm2 : m = String.mk (cs ++ []) := by
          rw [List.append_nil]
          cases m with
          | mk d => cases hmdata; rfl
        rw [hm2]
        exact parseIntJS_leading_digits cs [] hcs_ne hdig
          (fun c hc => by simp at hc) (fun _ c hc => by simp at hc)
      rw [hparse]
      show isGainSlNo ("GN" ++ padStart3 (intToString ((digitsToNat cs : Int) + 1))) = true
      rw [intToString_succ_cast]
      have hpad := padStart3_isCounterSuffix (digitsToNat cs + 1) (by omega)
      show isCounterSuffix (padStart3 (natToDecimal (digitsToNat cs + 1))).data = true
      exact hpad

theorem withAuth_ok (st : Store) (sess : Session) (uid : Int) (u : User)
    (hs : sess.userId = some uid) (hu : getUser st uid = some u) (k : User → HResult) :
    withAuth st sess k = k u := by
  simp [withAuth, hs, hu]

theorem withAdmin_ok (st : Store) (sess : Session) (u : User)
    (hr : u.role = "admin") (k : Unit → HResult) :
    withAdmin st sess u k = k () := by
  simp [withAdmin, hr]

/-!  ## Claims  -/

/-- C1: the claim (and the code's own comment) call for `1 + the numeric
maximum` of the slNo suffixes, i.e. `EXP1001` on a table holding `EXP999`
and `EXP1000`.  The SQL `max` in the source compares the suffix substrings
as text, and lexicographically `"999" > "1000"`, so the code returns
`EXP1000` — a duplicate of an existing slNo rather than the successor of
the numeric maximum. -/
theorem getNextExpenseSlNo_lexicographic_bug :
    getNextExpenseSlNo slNoOverflowStore = "EXP1000"
      ∧ "EXP" ++ padStart3 (intToString (1000 + 1)) = "EXP1001"
      ∧ (slNoOverflowStore.expenses.map (fun e => e.slNo)).contains "EXP1000" = true := by
  decide

/-- C10: `createUser` stores role `"staff"` whenever the supplied role is
falsy — both when it is absent and when it is the empty string — so every
user created through `createUser` has a non-empty role, and a caller
cannot create a user with role `""`. -/
theorem createUser_role_never_empty (st : Store) (u : InsertUser) :
    (createUser st u).1.role ≠ ""
      ∧ (u.role = none → (createUser st u).1.role = "staff")
      ∧ (u.role = some "" → (createUser st u).1.role = "staff") := by
  unfold createUser
  refine ⟨?_, ?_, ?_⟩
  · rcases u.role with _ | r
    · simp
    · by_cases hr : r = "" <;> simp [hr]
  · intro h; simp [h]
  · intro h; simp [h]

/-- Witness for C10 at a concrete input: an explicit empty role is
replaced by `"staff"`. -/
theorem createUser_role_never_empty_witness :
    (createUser emptyStore ⟨"u", "p", "N", some ""⟩).1.role = "staff" :=
  (createUser_role_never_empty emptyStore ⟨"u", "p", "N", some ""⟩).2.2 rfl

/-- C2: PUT/DELETE on expenses and gains and POST /api/users succeed only
for an admin-bound session: any authenticated session whose user's role is
not `"admin"` receives 403 with the store and session left unchanged, on
each of the five routes. -/
theorem admin_routes_forbid_non_admin (st : Store) (sess : Session) (uid : Int) (u : User)
    (hs : sess.userId = some uid) (hu : getUser st uid = some u)
    (hr : u.role ≠ "admin") :
    (∀ idParam patch, putExpenseHandler st sess idParam patch =
        ⟨403, .msg "Forbidden: Admin access required", st, sess⟩)
      ∧ (∀ idParam, deleteExpenseHandler st sess idParam =
        ⟨403, .msg "Forbidden: Admin access required", st, sess⟩)
      ∧ (∀ idParam patch, putGainHandler st sess idParam patch =
        ⟨403, .msg "Forbidden: Admin access required", st, sess⟩)
      ∧ (∀ idParam, deleteGainHandler st sess idParam =
        ⟨403, .msg "Forbidden: Admin access required", st, sess⟩)
      ∧ (∀ body, createUserHandler st sess body =
        ⟨403, .msg "Forbidden: Admin access required", st, sess⟩) := by
  refine ⟨fun i p => ?_, fun i => ?_, fun i p => ?_, fun i => ?_, fun b => ?_⟩ <;>
    simp [putExpenseHandler, deleteExpenseHandler, putGainHandler, deleteGainHandler,
      createUserHandler, withAuth, withAdmin, hs, hu, hr]

/-- Witness for C2: the seeded staff session receives 403 on all five
admin-gated routes, with the store untouched. -/
theorem admin_routes_forbid_non_admin_witness :
    putExpenseHandler seededStore ⟨some 2⟩ "1" {} =
        ⟨403, .msg "Forbidden: Admin access required", seededStore, ⟨some 2⟩⟩
      ∧ deleteExpenseHandler seededStore ⟨some 2⟩ "1" =
        ⟨403, .msg "Forbidden: Admin access required", seededStore, ⟨some 2⟩⟩
      ∧ putGainHandler seededStore ⟨some 2⟩ "1" {} =
        ⟨403, .msg "Forbidden: Admin access required", seededStore, ⟨some 2⟩⟩
      ∧ deleteGainHandler seededStore ⟨some 2⟩ "1" =
        ⟨403, .msg "Forbidden: Admin access required", seededStore, ⟨some 2⟩⟩
      ∧ createUserHandler seededStore ⟨some 2⟩ ⟨"x", "y", "Z", none⟩ =
        ⟨403, .msg "Forbidden: Admin access required", seededStore, ⟨some 2⟩⟩ := by
  have h := admin_routes_forbid_non_admin seededStore ⟨some 2⟩ 2 staffUser rfl (by decide)
    (by decide)
  exact ⟨h.1 "1" {}, h.2.1 "1", h.2.2.1 "1" {}, h.2.2.2.1 "1", h.2.2.2.2 ⟨"x", "y", "Z", none⟩⟩

/-- C6: for every authenticated session user and every valid body, POST
/api/expenses and POST /api/gains return 201 and the persisted record's
`createdBy` is the session user's id, whatever `createdBy` the client
supplied in the body. -/
theorem create_transaction_createdBy_is_session_user (st : Store) (sess : Session)
    (uid : Int) (u : User) (hs : sess.userId = some uid) (hu : getUser st uid = some u)
    (body : TransactionBody) :
    ((createExpenseHandler st sess body).status = 201
        ∧ ∃ r, (createExpenseHandler st sess body).body = .record r
            ∧ r.createdBy = u.id
            ∧ r ∈ (createExpenseHandler st sess body).store.expenses)
      ∧ ((createGainHandler st sess body).status = 201
        ∧ ∃ r, (createGainHandler st sess body).body = .record r
            ∧ r.createdBy = u.id
            ∧ r ∈ (createGainHandler st sess body).store.gains) := by
  refine ⟨⟨?_, ?_⟩, ⟨?_, ?_⟩⟩ <;>
    simp [createExpenseHandler, createGainHandler, withAuth, hs, hu,
      createExpense, createGain]

/-- Witness for C6: a staff session creating an expense and a gain on the
seeded store; the client-supplied `createdBy` of 999 is ignored in favor
of the session user's id 2. -/
theorem create_transaction_createdBy_witness :
    ((createExpenseHandler seededStore ⟨some 2⟩
          ⟨"EXP001", "2024-01-01", "10:00", "n", "t", "d", "cash", 5, some 999⟩).status = 201
        ∧ ∃ r, (createExpenseHandler seededStore ⟨some 2⟩
              ⟨"EXP001", "2024-01-01", "10:00", "n", "t", "d", "cash", 5, some 999⟩).body = .record r
            ∧ r.createdBy = staffUser.id
            ∧ r ∈ (createExpenseHandler seededStore ⟨some 2⟩
              ⟨"EXP001", "2024-01-01", "10:00", "n", "t", "d", "cash", 5, some 999⟩).store.expenses)
      ∧ ((createGainHandler seededStore ⟨some 2⟩
          ⟨"GN001", "2024-01-01", "10:00", "n", "t", "d", "cash", 5, some 999⟩).status = 201
        ∧ ∃ r, (createGainHandler seededStore ⟨some 2⟩
              ⟨"GN001", "2024-01-01", "10:00", "n", "t", "d", "cash", 5, some 999⟩).body = .record r
            ∧ r.createdBy = staffUser.id
            ∧ r ∈ (createGainHandler seededStore ⟨some 2⟩
              ⟨"GN001", "2024-01-01", "10:00", "n", "t", "d", "cash", 5, some 999⟩).store.gains) :=
  ⟨(create_transaction_createdBy_is_session_user seededStore ⟨some 2⟩ 2 staffUser rfl (by decide)
      ⟨"EXP001", "2024-01-01", "10:00", "n", "t", "d", "cash", 5, some 999⟩).1,
    (create_transaction_createdBy_is_session_user seededStore ⟨some 2⟩ 2 staffUser rfl (by decide)
      ⟨"GN001", "2024-01-01", "10:00", "n", "t", "d", "cash", 5, some 999⟩).2⟩

/-- C3 counterexample: the claim promises 200 for every stored
(username, password) pair, but a stored pair with an empty password is
stopped by the falsy-field 400 guard before credentials are checked. -/
theorem login_stored_empty_password_rejected :
    (⟨1, "alice", "", "Alice", "staff"⟩ : User) ∈ emptyPasswordStore.users
      ∧ (loginHandler emptyPasswordStore ⟨none⟩ "alice" "").status = 400 := by
  decide

/-- C3 (amended): for login requests whose username and password fields
are non-empty, an unknown username and a wrong password produce literally
identical responses (the same 401 status, message, and unchanged state),
so failure never reveals whether the username exists; and every stored
pair with non-empty username and password logs in with 200. -/
theorem login_uniform_failure_and_success (st : Store) (sess : Session) :
    (∀ un pw, un ≠ "" → pw ≠ "" → getUserByUsername st un = none →
        loginHandler st sess un pw = ⟨401, .msg "Invalid username or password", st, sess⟩)
      ∧ (∀ un pw u, un ≠ "" → pw ≠ "" → getUserByUsername st un = some u →
          u.password ≠ pw →
        loginHandler st sess un pw = ⟨401, .msg "Invalid username or password", st, sess⟩)
      ∧ (∀ un pw u, un ≠ "" → pw ≠ "" → getUserByUsername st un = some u →
          u.password = pw →
        loginHandler st sess un pw = ⟨200, .user (stripPassword u), st, ⟨some u.id⟩⟩) := by
  refine ⟨fun un pw h1 h2 hg => ?_, fun un pw u h1 h2 hg hp => ?_,
    fun un pw u h1 h2 hg hp => ?_⟩
  · simp [loginHandler, h1, h2, hg]
  · simp [loginHandler, h1, h2, hg, hp]
  · simp [loginHandler, h1, h2, hg, hp]

/-- Witness for C3 (amended): on the seeded store, a missing username and
a wrong password for `admin` produce the identical 401 response, and the
stored `admin`/`786786` pair logs in with 200. -/
theorem login_uniform_failure_and_success_witness :
    loginHandler seededStore ⟨none⟩ "nosuch" "786786" =
        ⟨401, .msg "Invalid username or password", seededStore, ⟨none⟩⟩
      ∧ loginHandler seededStore ⟨none⟩ "admin" "wrong" =
        ⟨401, .msg "Invalid username or password", seededStore, ⟨none⟩⟩
      ∧ loginHandler seededStore ⟨none⟩ "admin" "786786" =
        ⟨200, .user (stripPassword adminUser), seededStore, ⟨some adminUser.id⟩⟩ :=
  ⟨(login_uniform_failure_and_success seededStore ⟨none⟩).1 "nosuch" "786786"
      (by decide) (by decide) (by decide),
    (login_uniform_failure_and_success seededStore ⟨none⟩).2.1 "admin" "wrong" adminUser
      (by decide) (by decide) (by decide) (by decide),
    (login_uniform_failure_and_success seededStore ⟨none⟩).2.2 "admin" "786786" adminUser
      (by decide) (by decide) (by decide) (by decide)⟩

/-- C4: every success response carrying a user object — login 200,
GET /api/users/me 200, POST /api/users 201 — carries the stored user's
fields with the password stripped: the body is `stripPassword u`, which
holds exactly the id, username, name and role of the stored user `u` and
no password field. -/
theorem success_responses_strip_password (st : Store) (sess : Session) :
    (∀ un pw, (loginHandler st sess un pw).status = 200 →
        ∃ u, getUserByUsername st un = some u
          ∧ (loginHandler st sess un pw).body = .user (stripPassword u))
      ∧ ((meHandler st sess).status = 200 →
        ∃ uid u, sess.userId = some uid ∧ getUser st uid = some u
          ∧ (meHandler st sess).body = .user (stripPassword u))
      ∧ (∀ body, (createUserHandler st sess body).status = 201 →
        ∃ u, u ∈ (createUserHandler st sess body).store.users
          ∧ (createUserHandler st sess body).body = .user (stripPassword u))
      ∧ (∀ u : User, stripPassword u = ⟨u.id, u.username, u.name, u.role⟩) := by
  refine ⟨fun un pw => ?_, ?_, fun body => ?_, fun u => rfl⟩
  · unfold loginHandler
    by_cases h1 : un = "" ∨ pw = ""
    · simp [h1]
    · rw [if_neg h1]
      cases hg : getUserByUsername st un with
      | none => simp
      | some u =>
          by_cases hp : u.password ≠ pw
          · simp [hp]
          · simp [hp]
  · cases hs : sess.userId with
    | none => simp [meHandler, withAuth, hs]
    | some uid =>
        cases hu : getUser st uid with
        | none => simp [meHandler, withAuth, hs, hu]
        | some u =>
            rw [meHandler, withAuth_ok st sess uid u hs hu]
            exact fun _ => ⟨uid, u, rfl, hu, rfl⟩
  · cases hs : sess.userId with
    | none => simp [createUserHandler, withAuth, hs]
    | some uid =>
        cases hu : getUser st uid with
        | none => simp [createUserHandler, withAuth, hs, hu]
        | some u =>
            rw [createUserHandler, withAuth_ok st sess uid u hs hu]
            by_cases hr : u.role = "admin"
            · rw [withAdmin_ok st sess u hr]
              cases hb : getUserByUsername st body.username with
              | some v => simp [hb]
              | none =>
                  intro _
                  refine ⟨(createUser st body).1, ?_, rfl⟩
                  simp [createUser]
            · simp [withAdmin, hr]

/-- Witness for C4: the seeded admin logging in receives exactly the
password-stripped admin user object. -/
theorem success_responses_strip_password_witness :
    ∃ u, getUserByUsername seededStore "admin" = some u
      ∧ (loginHandler seededStore ⟨none⟩ "admin" "786786").body = .user (stripPassword u) :=
  (success_responses_strip_password seededStore ⟨none⟩).1 "admin" "786786" (by decide)

/-- An empty partial map leaves every field of the row unchanged. -/
theorem applyPatch_empty (r : TransactionRecord) : applyPatch r {} = r := rfl

/-- `updateExpense` with an empty partial map returns the stored row and
leaves the table as it was. -/
theorem updateExpense_empty (st : Store) (id : Int) :
    updateExpense st id {} = (getExpense st id, st) := by
  unfold updateExpense getExpense
  refine Prod.ext ?_ ?_
  · cases st.expenses.find? (fun r => r.id == id) <;> simp [applyPatch_empty]
  · show ({ st with expenses := _ } : Store) = st
    have hmap : st.expenses.map (fun r => if r.id == id then applyPatch r {} else r) =
        st.expenses := by
      rw [List.map_congr_left (g := fun r => r) (fun a _ => by
        by_cases h : a.id == id <;> simp [h, applyPatch_empty])]
      exact List.map_id st.expenses
    rw [hmap]

/-- `updateGain` with an empty partial map returns the stored row and
leaves the table as it was. -/
theorem updateGain_empty (st : Store) (id : Int) :
    updateGain st id {} = (getGain st id, st) := by
  unfold updateGain getGain
  refine Prod.ext ?_ ?_
  · cases st.gains.find? (fun r => r.id == id) <;> simp [applyPatch_empty]
  · show ({ st with gains := _ } : Store) = st
    have hmap : st.gains.map (fun r => if r.id == id then applyPatch r {} else r) =
        st.gains := by
      rw [List.map_congr_left (g := fun r => r) (fun a _ => by
        by_cases h : a.id == id <;> simp [h, applyPatch_empty])]
      exact List.map_id st.gains
    rw [hmap]

/-- C5: for both record kinds, an admin PUT with an empty partial-fields
map returns 200 with the stored record unchanged and leaves the store as
it was; a PUT whose id matches no row returns 404, creates nothing, and
leaves the store unchanged. -/
theorem update_empty_noop_and_missing_not_found (st : Store) (sess : Session)
    (uid : Int) (u : User) (hs : sess.userId = some uid) (hu : getUser st uid = some u)
    (hr : u.role = "admin") :
    (∀ idParam id r, parseIntJS idParam = some id → getExpense st id = some r →
        putExpenseHandler st sess idParam {} = ⟨200, .record r, st, sess⟩)
      ∧ (∀ idParam id p, parseIntJS idParam = some id → getExpense st id = none →
        putExpenseHandler st sess idParam p = ⟨404, .msg "Expense not found", st, sess⟩)
      ∧ (∀ idParam id r, parseIntJS idParam = some id → getGain st id = some r →
        putGainHandler st sess idParam {} = ⟨200, .record r, st, sess⟩)
      ∧ (∀ idParam id p, parseIntJS idParam = some id → getGain st id = none →
        putGainHandler st sess idParam p = ⟨404, .msg "Gain not found", st, sess⟩) := by
  refine ⟨fun idParam id r hp hg => ?_, fun idParam id p hp hg => ?_,
    fun idParam id r hp hg => ?_, fun idParam id p hp hg => ?_⟩
  · rw [putExpenseHandler, withAuth_ok st sess uid u hs hu, withAdmin_ok st sess u hr]
    simp [hp, hg, updateExpense_empty]
  · rw [putExpenseHandler, withAuth_ok st sess uid u hs hu, withAdmin_ok st sess u hr]
    simp [hp, hg]
  · rw [putGainHandler, withAuth_ok st sess uid u hs hu, withAdmin_ok st sess u hr]
    simp [hp, hg, updateGain_empty]
  · rw [putGainHandler, withAuth_ok st sess uid u hs hu, withAdmin_ok st sess u hr]
    simp [hp, hg]

/-- Witness for C5: on a concrete store, an admin PUT of `{}` to the
existing id 1 returns the stored record with the store unchanged, and a
PUT to the missing id 7 returns 404 with the store unchanged. -/
theorem update_empty_noop_and_missing_not_found_witness :
    putExpenseHandler oneOfEachStore ⟨some 1⟩ "1" {} =
        ⟨200, .record (sampleRec 1 "EXP001" "2024-01-01"), oneOfEachStore, ⟨some 1⟩⟩
      ∧ putExpenseHandler oneOfEachStore ⟨some 1⟩ "7" ⟨none, some "X", none, none,
          none, none, none, none, none, none⟩ =
        ⟨404, .msg "Expense not found", oneOfEachStore, ⟨some 1⟩⟩
      ∧ putGainHandler oneOfEachStore ⟨some 1⟩ "1" {} =
        ⟨200, .record (sampleRec 1 "GN001" "2024-01-01"), oneOfEachStore, ⟨some 1⟩⟩
      ∧ putGainHandler oneOfEachStore ⟨some 1⟩ "7" ⟨none, some "X", none, none,
          none, none, none, none, none, none⟩ =
        ⟨404, .msg "Gain not found", oneOfEachStore, ⟨some 1⟩⟩ := by
  have h := update_empty_noop_and_missing_not_found oneOfEachStore ⟨some 1⟩ 1 adminUser
    rfl (by decide) rfl
  exact ⟨h.1 "1" 1 _ (by decide) (by decide), h.2.1 "7" 7 _ (by decide) (by decide),
    h.2.2.1 "1" 1 _ (by decide) (by decide), h.2.2.2 "7" 7 _ (by decide) (by decide)⟩

/-- C7: `getExpenses` / `getGains` return exactly the stored records of
their kind (a permutation of the table), ordered by the `date` field
descending. -/
theorem list_returns_all_records_date_desc (st : Store) :
    (List.Perm (getExpenses st) st.expenses
        ∧ (getExpenses st).Pairwise (fun a b => b.date ≤ a.date))
      ∧ (List.Perm (getGains st) st.gains
        ∧ (getGains st).Pairwise (fun a b => b.date ≤ a.date)) := by
  have htrans : ∀ a b c : TransactionRecord,
      dateDescLe a b → dateDescLe b c → dateDescLe a c := by
    intro a b c hab hbc
    simp only [dateDescLe, decide_eq_true_eq] at *
    exact le_trans hbc hab
  have htotal : ∀ a b : TransactionRecord, dateDescLe a b || dateDescLe b a := by
    intro a b
    simp only [dateDescLe, Bool.or_eq_true, decide_eq_true_eq]
    exact le_total b.date a.date
  refine ⟨⟨List.mergeSort_perm _ _, ?_⟩, ⟨List.mergeSort_perm _ _, ?_⟩⟩ <;>
    exact (List.sorted_mergeSort htrans htotal _).imp (fun h => by
      simpa [dateDescLe] using h)

/-- C8: the update operation applies every field present in the supplied
partial map verbatim — `slNo`, `createdBy` and `id` included — with no
schema validation; the slNo-format invariant is preserved by the create
flow (a record created with the generated next slNo keeps every stored
slNo in `PREFIX` + counter shape) but not by update: a concrete admin
update storing slNo `"BADSLNO"` leaves a record whose slNo does not match
the format. -/
theorem update_unvalidated_breaks_slNo_format :
    (∀ (r : TransactionRecord) (p : TransactionPatch),
        (∀ v, p.slNo = some v → (applyPatch r p).slNo = v)
          ∧ (∀ v, p.createdBy = some v → (applyPatch r p).createdBy = v)
          ∧ (∀ v, p.id = some v → (applyPatch r p).id = v))
      ∧ (∀ st : Store, (∀ e ∈ st.expenses, isExpenseSlNo e.slNo = true) →
          ∀ b : InsertTransaction, b.slNo = getNextExpenseSlNo st →
            ∀ e ∈ (createExpense st b).2.expenses, isExpenseSlNo e.slNo = true)
      ∧ (∀ st : Store, (∀ g ∈ st.gains, isGainSlNo g.slNo = true) →
          ∀ b : InsertTransaction, b.slNo = getNextGainSlNo st →
            ∀ g ∈ (createGain st b).2.gains, isGainSlNo g.slNo = true)
      ∧ (putExpenseHandler oneOfEachStore ⟨some 1⟩ "1"
            ⟨none, some "BADSLNO", none, none, none, none, none, none, none, none⟩).store.expenses.map
          (fun e => isExpenseSlNo e.slNo) = [false] := by
  refine ⟨fun r p => ⟨fun v hv => ?_, fun v hv => ?_, fun v hv => ?_⟩,
    fun st hinv b hb e he => ?_, fun st hinv b hb g hg => ?_, by decide⟩
  · simp [applyPatch, hv]
  · simp [applyPatch, hv]
  · simp [applyPatch, hv]
  · rcases (show e ∈ st.expenses ∨
        e = ⟨st.nextExpenseId, b.slNo, b.date, b.time, b.name, b.type, b.detail,
          b.paymentType, b.amount, b.createdBy⟩ from by simpa [createExpense] using he) with
      hmem | hmem
    · exact hinv e hmem
    · rw [hmem]
      show isExpenseSlNo b.slNo = true
      rw [hb]
      exact getNextExpenseSlNo_format st hinv
  · rcases (show g ∈ st.gains ∨
        g = ⟨st.nextGainId, b.slNo, b.date, b.time, b.name, b.type, b.detail,
          b.paymentType, b.amount, b.createdBy⟩ from by simpa [createGain] using hg) with
      hmem | hmem
    · exact hinv g hmem
    · rw [hmem]
      show isGainSlNo b.slNo = true
      rw [hb]
      exact getNextGainSlNo_format st hinv

/-- Witness for C8 at concrete inputs: a patch carrying slNo, createdBy
and id is applied verbatim, and the create flow on a well-formed store
yields only well-formed slNos. -/
theorem update_unvalidated_breaks_slNo_format_witness :
    ((applyPatch (sampleRec 1 "EXP001" "2024-01-01")
        ⟨some 9, some "BADSLNO", none, none, none, none, none, none, none, some 5⟩).slNo =
          "BADSLNO"
        ∧ (applyPatch (sampleRec 1 "EXP001" "2024-01-01")
        ⟨some 9, some "BADSLNO", none, none, none, none, none, none, none, some 5⟩).createdBy = 5
        ∧ (applyPatch (sampleRec 1 "EXP001" "2024-01-01")
        ⟨some 9, some "BADSLNO", none, none, none, none, none, none, none, some 5⟩).id = 9)
      ∧ (∀ e ∈ (createExpense oneOfEachStore
          ⟨getNextExpenseSlNo oneOfEachStore, "2024-01-02", "10:00", "n", "t", "d", "cash", 5,
            1⟩).2.expenses, isExpenseSlNo e.slNo = true) := by
  have h := update_unvalidated_breaks_slNo_format
  refine ⟨⟨(h.1 _ _).1 "BADSLNO" rfl, (h.1 _ _).2.1 5 rfl, (h.1 _ _).2.2 9 rfl⟩, ?_⟩
  exact h.2.1 oneOfEachStore (by decide)
    ⟨getNextExpenseSlNo oneOfEachStore, "2024-01-02", "10:00", "n", "t", "d", "cash", 5, 1⟩ rfl

/-- C9 counterexample: for the id parameter `"0x10"` the leading decimal
number is `0`, but `parseInt` with no radix reads a hexadecimal prefix and
the handler targets record 16: deleting `"0x10"` removes record 16 and
leaves record 0, while deleting `"0"` removes record 0. -/
theorem id_param_hex_prefix_counterexample :
    parseIntJS "0x10" = some 16
      ∧ (deleteExpenseHandler hexIdStore ⟨some 1⟩ "0x10").store.expenses =
          [sampleRec 0 "EXP000" "2024-01-01"]
      ∧ (deleteExpenseHandler hexIdStore ⟨some 1⟩ "0").store.expenses =
          [sampleRec 16 "EXP016" "2024-01-02"] := by
  decide

/-- C9 (amended): PUT and DELETE on both kinds parse the id with
`parseInt` and reject with 400 exactly when it yields `NaN`; an id whose
leading characters form a decimal number followed by non-digit trailing
text is treated as targeting that leading number — except that a `0x` /
`0X` hexadecimal prefix (only possible when the leading number is 0) is
read in base 16 instead. -/
theorem id_param_parseInt_semantics (st : Store) (sess : Session) (uid : Int) (u : User)
    (hs : sess.userId = some uid) (hu : getUser st uid = some u) (hr : u.role = "admin") :
    (∀ idParam patch, parseIntJS idParam = none →
        putExpenseHandler st sess idParam patch = ⟨400, .msg "Invalid expense ID", st, sess⟩
          ∧ deleteExpenseHandler st sess idParam = ⟨400, .msg "Invalid expense ID", st, sess⟩
          ∧ putGainHandler st sess idParam patch = ⟨400, .msg "Invalid gain ID", st, sess⟩
          ∧ deleteGainHandler st sess idParam = ⟨400, .msg "Invalid gain ID", st, sess⟩)
      ∧ (∀ idParam id patch, parseIntJS idParam = some id →
          (putExpenseHandler st sess idParam patch).status ≠ 400
            ∧ (deleteExpenseHandler st sess idParam).status ≠ 400
            ∧ (putGainHandler st sess idParam patch).status ≠ 400
            ∧ (deleteGainHandler st sess idParam).status ≠ 400)
      ∧ (∀ (n : Nat) (restStr : String) (patch : TransactionPatch),
          (∀ c, restStr.data.head? = some c → c.isDigit = false) →
          (n = 0 → ∀ c, restStr.data.head? = some c → c ≠ 'x' ∧ c ≠ 'X') →
            parseIntJS (natToDecimal n ++ restStr) = some (n : Int)
              ∧ putExpenseHandler st sess (natToDecimal n ++ restStr) patch =
                  putExpenseHandler st sess (natToDecimal n) patch
              ∧ deleteExpenseHandler st sess (natToDecimal n ++ restStr) =
                  deleteExpenseHandler st sess (natToDecimal n)
              ∧ putGainHandler st sess (natToDecimal n ++ restStr) patch =
                  putGainHandler st sess (natToDecimal n) patch
              ∧ deleteGainHandler st sess (natToDecimal n ++ restStr) =
                  deleteGainHandler st sess (natToDecimal n)) := by
  obtain ⟨hne, hd, hval, hhead⟩ := natToDecimal_spec 0
  refine ⟨fun idParam patch hp => ?_, fun idParam id patch hp => ?_,
    fun n restStr patch hrd hhx => ?_⟩
  · refine ⟨?_, ?_, ?_, ?_⟩
    · rw [putExpenseHandler, withAuth_ok st sess uid u hs hu, withAdmin_ok st sess u hr]
      simp [hp]
    · rw [deleteExpenseHandler, withAuth_ok st sess uid u hs hu, withAdmin_ok st sess u hr]
      simp [hp]
    · rw [putGainHandler, withAuth_ok st sess uid u hs hu, withAdmin_ok st sess u hr]
      simp [hp]
    · rw [deleteGainHandler, withAuth_ok st sess uid u hs hu, withAdmin_ok st sess u hr]
      simp [hp]
  · refine ⟨?_, ?_, ?_, ?_⟩
    · rw [putExpenseHandler, withAuth_ok st sess uid u hs hu, withAdmin_ok st sess u hr]
      cases hg : getExpense st id
      · simp [hp, hg]
      · cases hf : st.expenses.find? (fun r => r.id == id) <;>
          simp [hp, hg, updateExpense, hf]
    · rw [deleteExpenseHandler, withAuth_ok st sess uid u hs hu, withAdmin_ok st sess u hr]
      cases hg : getExpense st id <;> simp [hp, hg, deleteExpense]
    · rw [putGainHandler, withAuth_ok st sess uid u hs hu, withAdmin_ok st sess u hr]
      cases hg : getGain st id
      · simp [hp, hg]
      · cases hf : st.gains.find? (fun r => r.id == id) <;>
          simp [hp, hg, updateGain, hf]
    · rw [deleteGainHandler, withAuth_ok st sess uid u hs hu, withAdmin_ok st sess u hr]
      cases hg : getGain st id <;> simp [hp, hg, deleteGain]
  · obtain ⟨hne2, hd2, hval2, hhead2⟩ := natToDecimal_spec n
    have hhex2 : (natToDecimal n).data = ['0'] →
        ∀ c, restStr.data.head? = some c → c ≠ 'x' ∧ c ≠ 'X' := by
      intro hds
      have : n = 0 := by
        rw [← hval2, hds]
        decide
      exact hhx this
    have hp1 : parseIntJS (natToDecimal n ++ restStr) = some (n : Int) := by
      have := parseIntJS_leading_digits (natToDecimal n).data restStr.data hne2 hd2 hrd hhex2
      rw [hval2] at this
      exact this
    have hp2 : parseIntJS (natToDecimal n) = some (n : Int) := by
      have := parseIntJS_leading_digits (natToDecimal n).data [] hne2 hd2
        (fun c hc => by simp at hc)
        (fun hds c hc => by simp at hc)
      rw [hval2, List.append_nil] at this
      exact this
    refine ⟨hp1, ?_, ?_, ?_, ?_⟩
    · simp only [putExpenseHandler, hp1, hp2]
    · simp only [deleteExpenseHandler, hp1, hp2]
    · simp only [putGainHandler, hp1, hp2]
    · simp only [deleteGainHandler, hp1, hp2]

/-- Witness for C9 (amended): the seeded admin deleting id `"3abc"` on a
concrete store behaves exactly as deleting id `"3"`, and an unparsable id
yields 400. -/
theorem id_param_parseInt_semantics_witness :
    (putExpenseHandler hexIdStore ⟨some 1⟩ "abc" {} =
        ⟨400, .msg "Invalid expense ID", hexIdStore, ⟨some 1⟩⟩)
      ∧ parseIntJS ((natToDecimal 3) ++ "abc") = some 3
      ∧ deleteExpenseHandler hexIdStore ⟨some 1⟩ ((natToDecimal 3) ++ "abc") =
          deleteExpenseHandler hexIdStore ⟨some 1⟩ (natToDecimal 3) := by
  have h := id_param_parseInt_semantics hexIdStore ⟨some 1⟩ 1 adminUser rfl (by decide) rfl
  have h3 := h.2.2 3 "abc" {}
    (fun c hc => by
      have := Option.some.inj hc
      subst this
      decide)
    (fun h0 => absurd h0 (by decide))
  exact ⟨(h.1 "abc" {} (by decide)).1, h3.1, h3.2.2.1⟩

end Zorax
